import Mathlib

/-!
Verification of the studfinder inventory store against its specification.

This file shallowly embeds the store layer of the repository:

* `src/src/core/piece.rs` — the `Piece` record;
* `src/src/error.rs` — the `StudFinderError` taxonomy;
* `src/src/storage/database.rs` — the schema-versioned SQLite store
  (`Database::init`, `reset`, `add_piece`, `get_piece`, `list_pieces`,
  `update_quantity`, `delete_piece`), modelled in the `Database` namespace;
* `src/src/db.rs` — the older store variant wired into `lib.rs`, modelled in
  the `Db` namespace where its behaviour differs;
* `src/src/storage/export.rs` — the JSON/CSV export/import codec.

Machine integers (`i32`) are modelled as `Int` and the `f32` confidence as
`Rat`: the store never performs arithmetic on `confidence`, it is only stored
and copied, so an exact numeric carrier is faithful.  SQLite statement
semantics (CREATE TABLE IF NOT EXISTS, ALTER TABLE ADD COLUMN, CREATE INDEX IF
NOT EXISTS, INSERT primary-key conflicts, UPDATE/DELETE row counting) are
modelled explicitly on a `DbState`.  Lock acquisition and begin/commit are
assumed to succeed: their failures depend on the runtime, not on store state.
-/

/-- A catalog record, from `src/src/core/piece.rs` (`struct Piece`).  The Rust
`quantity: i32` is modelled as `Int` and `confidence: f32` as `Rat`. -/
structure Piece where
  id : String
  part_number : String
  color : String
  category : String
  quantity : Int
  confidence : Rat
  deriving DecidableEq

/-- Error taxonomy, from `src/src/error.rs` (`enum StudFinderError`).  Boxed
source causes are abstracted away; each variant keeps its context fields. -/
inductive StudFinderError where
  | Database (operation : String)
  | Migration (version : Int) (operation : String)
  | DatabaseLockFailed (operation : String)
  | DatabaseResetFailed (source : StudFinderError)
  | PieceNotFound (id : String)
  | Config (msg : String)
  deriving DecidableEq

/-- Contents of the `pieces` table: one row per record.  Primary-key
uniqueness of `id` is an invariant of reachable states, not of the type. -/
abbrev PiecesTable := List Piece

namespace Database

/-- Embeds `SELECT id, part_number, color, category, quantity, confidence FROM
pieces WHERE id = ?` read through `query_row(..).optional()`: the first row
matching the id, or `none`. -/
def selectById : PiecesTable → String → Option Piece
  | [], _ => none
  | r :: t, id => if r.id == id then some r else selectById t id

/-- Embeds `Database::add_piece` (`src/src/storage/database.rs` lines 257–341, and
identically `src/src/db.rs` lines 161–221): inside one transaction, `SELECT`
the row with the submitted id; if found, `UPDATE pieces SET quantity =
piece.quantity + existing.quantity WHERE id = piece.id` (only the quantity
column is written); otherwise `INSERT` the full record. -/
def add_piece (table : PiecesTable) (piece : Piece) :
    Except StudFinderError Unit × PiecesTable :=
  match selectById table piece.id with
  | some existing =>
      (.ok (), table.map (fun r =>
        if r.id == piece.id then
          { r with quantity := piece.quantity + existing.quantity }
        else r))
  | none => (.ok (), table ++ [piece])

/-- Embeds `Database::get_piece` (lines 358–397): `SELECT ... WHERE id = ?`, absence
is `Ok(None)`, never an error. -/
def get_piece (table : PiecesTable) (id : String) :
    Except StudFinderError (Option Piece) :=
  .ok (selectById table id)

/-- Embeds `Database::list_pieces` (lines 411–460): all rows. -/
def list_pieces (table : PiecesTable) : Except StudFinderError PiecesTable :=
  .ok table

/-- Embeds `Database::update_quantity` (lines 479–504): executes `UPDATE pieces SET
quantity = ?1 WHERE id = ?2` (auto-commit), then returns
`PieceNotFound(id)` when the statement affected zero rows.  The pair's second
component is the persisted table after the call. -/
def update_quantity (table : PiecesTable) (id : String) (quantity : Int) :
    Except StudFinderError Unit × PiecesTable :=
  let updated := table.map (fun r =>
    if r.id == id then { r with quantity := quantity } else r)
  let rows_affected := (table.filter (fun r => r.id == id)).length
  if rows_affected = 0 then (.error (.PieceNotFound id), updated)
  else (.ok (), updated)

/-- Embeds `Database::delete_piece` (lines 522–544): executes `DELETE FROM pieces
WHERE id = ?`, then returns `PieceNotFound(id)` when zero rows were
affected. -/
def delete_piece (table : PiecesTable) (id : String) :
    Except StudFinderError Unit × PiecesTable :=
  let remaining := table.filter (fun r => !(r.id == id))
  let rows_affected := (table.filter (fun r => r.id == id)).length
  if rows_affected = 0 then (.error (.PieceNotFound id), remaining)
  else (.ok (), remaining)

end Database

namespace Db

/-- Embeds `Database::update_quantity` from the older `src/src/db.rs` (lines
302–314): executes the same `UPDATE` but never inspects the affected-row
count, so it returns `Ok(())` even when the id is absent. -/
def update_quantity (table : PiecesTable) (id : String) (quantity : Int) :
    Except StudFinderError Unit × PiecesTable :=
  (.ok (), table.map (fun r =>
    if r.id == id then { r with quantity := quantity } else r))

/-- Embeds `Database::delete_piece` from `src/src/db.rs` (lines 323–332): executes
the `DELETE` and returns `Ok(())` regardless of the affected-row count. -/
def delete_piece (table : PiecesTable) (id : String) :
    Except StudFinderError Unit × PiecesTable :=
  (.ok (), table.filter (fun r => !(r.id == id)))

end Db

/-- The persisted store state seen by the migration engine: the
`schema_version` ledger (`none` when the table does not exist, otherwise its
rows' version values in insertion order), the column list of the `pieces`
table (`none` when absent), the `pieces` rows, and the index names present. -/
structure DbState where
  schema_version : Option (List Int)
  pieces_cols : Option (List String)
  pieces_rows : PiecesTable
  indexes : List String
  deriving DecidableEq

namespace Database

/-- Column list created by the version-1 migration (`CREATE TABLE pieces`). -/
def piecesColsV1 : List String :=
  ["id", "part_number", "color", "category", "quantity"]

/-- Embeds `SELECT COALESCE(MAX(version), 0) FROM schema_version`: SQL `MAX` over the
ledger rows, `NULL` coalesced to `0` when the ledger is empty. -/
def currentVersion (s : DbState) : Int :=
  match s.schema_version.getD [] with
  | [] => 0
  | v :: vs => vs.foldl max v

/-- Embeds `CREATE TABLE IF NOT EXISTS schema_version (...)`: a no-op when the table
already exists, otherwise creates it empty.  This statement cannot fail. -/
def createSchemaVersionTable (s : DbState) : DbState :=
  match s.schema_version with
  | some _ => s
  | none => { s with schema_version := some [] }

/-- Embeds `CREATE TABLE IF NOT EXISTS pieces (...)` — the version-1 DDL: a no-op
when the table exists, otherwise creates the five-column table with no rows.
This statement cannot fail. -/
def createPiecesTable (s : DbState) : DbState :=
  match s.pieces_cols with
  | some _ => s
  | none => { s with pieces_cols := some piecesColsV1, pieces_rows := [] }

/-- Embeds `ALTER TABLE pieces ADD COLUMN confidence REAL NOT NULL DEFAULT 1.0` — the
version-2 DDL.  SQLite fails when the `pieces` table is absent (no such
table) or when the `confidence` column already exists (duplicate column
name); on success the column is appended and every existing row takes the
default value `1.0`. -/
def alterAddConfidence (s : DbState) : Option DbState :=
  match s.pieces_cols with
  | none => none
  | some cols =>
      if "confidence" ∈ cols then none
      else some { s with
        pieces_cols := some (cols ++ ["confidence"]),
        pieces_rows := s.pieces_rows.map (fun p => { p with confidence := 1 }) }

/-- Embeds `CREATE INDEX IF NOT EXISTS name ON pieces(...)`: a no-op when an index of
that name exists.  Within `init` the `pieces` table always exists at this
point, so the statement cannot fail. -/
def createIndex (s : DbState) (name : String) : DbState :=
  if name ∈ s.indexes then s else { s with indexes := s.indexes ++ [name] }

/-- Embeds `INSERT INTO schema_version (version) VALUES (v)`: appends a ledger row,
failing on the primary-key conflict when `v` is already recorded (and when
the table is absent). -/
def insertSchemaVersion (s : DbState) (v : Int) : Option DbState :=
  match s.schema_version with
  | none => none
  | some ledger =>
      if v ∈ ledger then none
      else some { s with schema_version := some (ledger ++ [v]) }

/-- Embeds `Database::init` (`src/src/storage/database.rs` lines 57–174).  Ensures
the ledger table exists, reads the current version once, then applies every
migration step whose target version exceeds it, in order, wrapping each
step's failure in `Migration {version, operation}` exactly as the source
does.  The whole body runs inside one transaction: this function returns the
committed state on success and only the error on failure (`initPersisted`
makes the rollback explicit). -/
def init (s : DbState) : Except StudFinderError DbState :=
  let s0 := createSchemaVersionTable s
  let version := currentVersion s0
  let step1 : Except StudFinderError DbState :=
    if version < 1 then
      match insertSchemaVersion (createPiecesTable s0) 1 with
      | none => .error (.Migration 1 "update schema version")
      | some t => .ok t
    else .ok s0
  match step1 with
  | .error e => .error e
  | .ok s1 =>
      if version < 2 then
        match alterAddConfidence s1 with
        | none => .error (.Migration 2 "add confidence column")
        | some tA =>
            match insertSchemaVersion
                (createIndex (createIndex tA "idx_part_number") "idx_color") 2 with
            | none => .error (.Migration 2 "update schema version")
            | some tB => .ok tB
      else .ok s1

/-- The persisted-state view of `init`: rusqlite rolls a transaction back when
it is dropped on the error path, so a failing call leaves the store exactly
as it was before the call. -/
def initPersisted (s : DbState) : Except StudFinderError Unit × DbState :=
  match init s with
  | .ok s' => (.ok (), s')
  | .error e => (.error e, s)

/-- Embeds `Database::reset` (lines 190–238): inside one transaction, `DROP TABLE IF
EXISTS pieces` (which also drops the table's indexes) and `DROP TABLE IF
EXISTS schema_version`; then, after releasing the lock, re-run `init`.  An
`init` failure is wrapped in `DatabaseResetFailed`. -/
def reset (s : DbState) : Except StudFinderError DbState :=
  let s1 := { s with pieces_cols := none, pieces_rows := [], indexes := [] }
  let s2 := { s1 with schema_version := none }
  match init s2 with
  | .ok s' => .ok s'
  | .error e => .error (.DatabaseResetFailed e)

end Database

/-- JSON values, the target and source of the serde_json codec.  Integer and
non-integer numbers are separated because serde rejects a fractional number
where an `i32` field is expected but accepts an integer for an `f32` field.
The text layer (`to_string_pretty` / `from_str`) is modelled at the value
level: serde_json escapes strings and prints floats in shortest
round-tripping form, so for records without control-character anomalies
printing followed by parsing is an exact inverse on values. -/
inductive Json where
  | str (s : String)
  | int (n : Int)
  | num (q : Rat)
  | arr (xs : List Json)
  | obj (fields : List (String × Json))

namespace ExportManager

/-- Serialization of one `Piece` by serde's derived `Serialize`: an object
with the six fields in declaration order. -/
def pieceToJson (p : Piece) : Json :=
  .obj [("id", .str p.id), ("part_number", .str p.part_number),
        ("color", .str p.color), ("category", .str p.category),
        ("quantity", .int p.quantity), ("confidence", .num p.confidence)]

/-- Field lookup in a JSON object (first occurrence). -/
def getField (fields : List (String × Json)) (k : String) : Option Json :=
  (fields.find? (fun kv => kv.1 == k)).map (fun kv => kv.2)

/-- Decoding a JSON value as a Rust `String` field. -/
def asStr : Json → Option String
  | .str s => some s
  | _ => none

/-- Decoding a JSON value as an `i32` field: an integer in range, a
fractional number or any other shape is rejected. -/
def asI32 : Json → Option Int
  | .int n => if -(2 ^ 31) ≤ n ∧ n < 2 ^ 31 then some n else none
  | _ => none

/-- Decoding a JSON value as an `f32` field: any number is accepted,
integers included. -/
def asF32 : Json → Option Rat
  | .num q => some q
  | .int n => some (n : Rat)
  | _ => none

/-- Deserialization of one `Piece` by serde's derived `Deserialize`: an
object that provides all six fields with the right types (extra fields are
ignored, a missing or ill-typed field is an error). -/
def pieceFromJson : Json → Option Piece
  | .obj fields => do
      let id ← getField fields "id" >>= asStr
      let pn ← getField fields "part_number" >>= asStr
      let color ← getField fields "color" >>= asStr
      let cat ← getField fields "category" >>= asStr
      let qty ← getField fields "quantity" >>= asI32
      let conf ← getField fields "confidence" >>= asF32
      some ⟨id, pn, color, cat, qty, conf⟩
  | _ => none

/-- Embeds `ExportManager::export_inventory` JSON branch (`src/src/storage/export.rs`
lines 29–34): `serde_json::to_string_pretty(pieces)`, at the value level the
array of the serialized records in order. -/
def exportInventoryJson (pieces : List Piece) : Json :=
  .arr (pieces.map pieceToJson)

/-- Sequential decoding of a JSON array's elements, as serde's `Vec<Piece>`
deserialization performs it: every element must decode. -/
def decodeAll : List Json → Option (List Piece)
  | [] => some []
  | j :: js => do
      let p ← pieceFromJson j
      let ps ← decodeAll js
      some (p :: ps)

/-- Embeds `ExportManager::import_inventory` JSON branch (lines 71–76):
`serde_json::from_str::<Vec<Piece>>`, failing with a `Config` error on
malformed input.  The source formats the serde message into the error
string; the message detail is abstracted to its fixed prefix. -/
def importInventoryJson (j : Json) : Except StudFinderError (List Piece) :=
  match j with
  | .arr xs =>
      match decodeAll xs with
      | some ps => .ok ps
      | none => .error (.Config "Failed to parse JSON data")
  | _ => .error (.Config "Failed to parse JSON data")

/-- Digit run to a natural number. -/
def digitsToNat (ds : List Char) : Nat :=
  ds.foldl (fun a c => a * 10 + (c.toNat - ('0').toNat)) 0

/-- Rust `i32::from_str`, as used by `fields[4].parse::<i32>()`: an optional
sign followed by one or more ASCII digits and nothing else, the value
range-checked against `i32`. -/
def parseI32 (s : String) : Option Int :=
  let (sign, digits) :=
    match s.toList with
    | '+' :: rest => ((1 : Int), rest)
    | '-' :: rest => ((-1 : Int), rest)
    | l => (1, l)
  if digits.isEmpty ∨ ¬ digits.all Char.isDigit then none
  else
    let n : Int := sign * (digitsToNat digits : Int)
    if -(2 ^ 31) ≤ n ∧ n < 2 ^ 31 then some n else none

/-- The numeric fragment of Rust `f32::from_str`, as used by
`fields[5].parse::<f32>()`: optional sign, then a significand with at least
one digit (`123`, `123.`, `123.45`, `.45`) and an optional exponent
(`e`/`E`, optional sign, one or more digits).  The special forms
`inf`/`infinity`/`nan` are not modelled.  The value is kept as an exact
rational; rounding to the nearest `f32` affects no claim settled here, which
depend only on parse success/failure and pass-through storage. -/
def parseF32 (s : String) : Option Rat :=
  let (neg, r0) :=
    match s.toList with
    | '+' :: r => (false, r)
    | '-' :: r => (true, r)
    | l => (false, l)
  let ipart := r0.takeWhile Char.isDigit
  let r1 := r0.dropWhile Char.isDigit
  let hasDot := match r1 with | '.' :: _ => true | _ => false
  let afterDot := match r1 with | '.' :: t => t | _ => []
  let fpart := afterDot.takeWhile Char.isDigit
  let r2 := if hasDot then afterDot.dropWhile Char.isDigit else r1
  if ipart.isEmpty ∧ fpart.isEmpty then none
  else
    let num : Int :=
      (if neg then -1 else 1) *
        ((digitsToNat ipart * 10 ^ fpart.length + digitsToNat fpart : Nat) : Int)
    let den : Nat := 10 ^ fpart.length
    match r2 with
    | [] => some (mkRat num den)
    | c :: t =>
        if c = 'e' ∨ c = 'E' then
          let (eneg, t1) :=
            match t with
            | '+' :: u => (false, u)
            | '-' :: u => (true, u)
            | u => (false, u)
          if ¬ t1.isEmpty ∧ t1.all Char.isDigit then
            let ex := digitsToNat t1
            some (if eneg then mkRat num (den * 10 ^ ex)
                  else mkRat (num * (10 ^ ex : Nat)) den)
          else none
        else none

/-- Character-level splitting on a separator, the semantics of Rust's
`str::split(char)`: consecutive separators yield empty fields and the empty
input yields one empty field. -/
def splitOnChar (sep : Char) : List Char → List (List Char)
  | [] => [[]]
  | c :: rest =>
      if c = sep then [] :: splitOnChar sep rest
      else
        match splitOnChar sep rest with
        | [] => [[c]]
        | g :: gs => (c :: g) :: gs

/-- Rust `line.split(',').collect::<Vec<&str>>()`. -/
def splitComma (line : String) : List String :=
  (splitOnChar ',' line.toList).map (fun cs => String.mk cs)

/-- One pass of the CSV import loop (`for line in data.lines().skip(1)`),
`src/src/storage/export.rs` lines 82–100 (and identically
`src/src/lib.rs` lines 181–196): split the line on commas; a line with
exactly six fields is parsed — quantity as `i32`, confidence as `f32`, a
parse failure aborting the whole import with the `Config` error naming the
field — while a line with any other number of fields falls outside the
`if fields.len() == 6` guard and is skipped. -/
def importCsvGo : List String → Except StudFinderError (List Piece)
  | [] => .ok []
  | line :: rest =>
      match splitComma line with
      | [idF, pn, colorF, cat, qtyF, confF] =>
          match parseI32 qtyF with
          | none => .error (.Config "Failed to parse quantity")
          | some q =>
              match parseF32 confF with
              | none => .error (.Config "Failed to parse confidence")
              | some c => do
                  let ps ← importCsvGo rest
                  pure (⟨idF, pn, colorF, cat, q, c⟩ :: ps)
      | _ => importCsvGo rest

/-- Embeds `ExportManager::import_inventory` CSV branch (lines 77–102): skip the
header line, then run the per-line loop over the remaining lines. -/
def importInventoryCsv (fileLines : List String) : Except StudFinderError (List Piece) :=
  importCsvGo (fileLines.drop 1)

/-- Which parser `import_inventory` runs. -/
inductive ParseKind where
  | json
  | csv
  deriving DecidableEq

/-- Rust `Path::extension` for the path strings used here: take the final
path component (after the last `/`), split it at its last `.`; the result is
`none` when the file name has no `.` past its first character (so `"inv"`
and the hidden file `".json"` have no extension), and otherwise the suffix
after the last `.`, case preserved. -/
def extensionOf (path : String) : Option String :=
  let comps := splitOnChar '/' path.toList
  let name := (comps.filter (fun c => c ≠ [])).getLastD []
  match splitOnChar '.' name with
  | [] => none
  | [_] => none
  | [] :: [_] => none
  | parts => some (String.mk (parts.getLastD []))

/-- The dispatch at the head of `ExportManager::import_inventory` (lines
68–80, and identically `StudFinder::import_inventory`, `src/src/lib.rs`
lines 168–181): `path.extension().and_then(|s| s.to_str()) == Some("json")`
selects the JSON parser; every other path falls through to the CSV branch. -/
def importKind (path : String) : ParseKind :=
  if extensionOf path = some "json" then .json else .csv

end ExportManager

namespace Database

/-- The table-mutating repository operations reachable from the public
surface (`import` feeds each parsed record through `add_piece`, so
import-then-add is a sequence of `add`s). -/
inductive Op where
  | add (p : Piece)
  | upd (id : String) (q : Int)
  | del (id : String)

/-- The persisted table after one operation: the table the operation leaves
behind whether it reports success or a not-found error. -/
def applyOp (table : PiecesTable) : Op → PiecesTable
  | .add p => (add_piece table p).2
  | .upd id q => (update_quantity table id q).2
  | .del id => (delete_piece table id).2

/-- The table reached by a sequence of public operations from the empty
`pieces` table that `init` guarantees. -/
def run (ops : List Op) : PiecesTable :=
  ops.foldl applyOp []

/-- The ordered (target version, operation name) pairs of the migration
ladder's steps, exactly as `Database::init` wraps their failures in
`Migration {version, operation}`. -/
def initStepNames : List (Int × String) :=
  [(1, "create pieces table"), (1, "update schema version"),
   (2, "add confidence column"), (2, "create part_number index"),
   (2, "create color index"), (2, "update schema version")]

/-- The target versions of the migration ladder, in order. -/
def migrationTargets : List Int := [1, 2]

end Database

/-- The spec's record invariant: `quantity ≥ 0` and `confidence ∈ [0, 1]`. -/
def ValidPiece (p : Piece) : Prop :=
  0 ≤ p.quantity ∧ 0 ≤ p.confidence ∧ p.confidence ≤ 1

/-- Input validity of one operation: submitted records satisfy the record
invariant, and quantity updates carry a non-negative value. -/
def ValidOp : Database.Op → Prop
  | .add p => ValidPiece p
  | .upd _ q => 0 ≤ q
  | .del _ => True

deriving instance DecidableEq for Except

/-- A fresh database file: no tables yet. -/
def emptyDb : DbState := ⟨none, none, [], []⟩

/-- The schema produced by initializing a fresh database: ledger `[1, 2]`,
the six-column `pieces` table with no rows, and both indexes. -/
def initializedState : DbState :=
  { schema_version := some [1, 2],
    pieces_cols := some (Database.piecesColsV1 ++ ["confidence"]),
    pieces_rows := [],
    indexes := ["idx_part_number", "idx_color"] }

/-- A store state on which `init` fails: the ledger table was lost (so the
persisted version reads 0) while the `pieces` table already carries the
`confidence` column, making the version-2 `ALTER TABLE` hit a duplicate
column. -/
def corruptedDb : DbState :=
  { schema_version := some [],
    pieces_cols := some (Database.piecesColsV1 ++ ["confidence"]),
    pieces_rows := [],
    indexes := [] }

/-- The sample record used throughout the repository's tests (confidence
`0.95 = 19/20`). -/
def samplePiece : Piece := ⟨"a", "3001", "Red", "Brick", 1, mkRat 19 20⟩

/-- A second submission of the same physical piece: same id, different
quantity and confidence (`0.50`). -/
def samplePiece2 : Piece := ⟨"a", "3001", "Red", "Brick", 2, mkRat 1 2⟩

/-- Every stored row satisfies the record invariant. -/
def TableValid (t : PiecesTable) : Prop := ∀ p ∈ t, ValidPiece p

/-- A store whose `pieces` table is still at the version-1 layout. -/
def v1Db : DbState :=
  { schema_version := none,
    pieces_cols := some Database.piecesColsV1,
    pieces_rows := [],
    indexes := [] }

/-- The store `v1Db` after a successful `ADD COLUMN confidence`. -/
def v1DbAltered : DbState :=
  { v1Db with pieces_cols := some (Database.piecesColsV1 ++ ["confidence"]) }

/-- Rewriting every row matching an id with an id-preserving function moves
the selected first match to its image. -/
theorem selectById_map_update (l : PiecesTable) (id : String) (g : Piece → Piece)
    (hg : ∀ r, (g r).id = r.id) (e : Piece)
    (h : Database.selectById l id = some e) :
    Database.selectById (l.map fun r => if r.id == id then g r else r) id =
      some (g e) := by
  induction l with
  | nil => simp [Database.selectById] at h
  | cons a t ih =>
    by_cases ha : (a.id == id) = true
    · have he : a = e := by simpa [Database.selectById, ha] using h
      subst he
      simp [Database.selectById, ha, hg]
    · have h' : Database.selectById t id = some e := by
        simpa [Database.selectById, ha] using h
      have hfa : (if (a.id == id) = true then g a else a) = a := if_neg ha
      simp only [List.map_cons, hfa, Database.selectById]
      rw [if_neg ha]
      exact ih h'

/-- C1: `add_piece` always succeeds.  When a row with the submitted id
already exists with quantity `q0` and fields `f0`, the stored row ends with
quantity `q0 + piece.quantity` while its part number, color, category and
confidence stay `f0` — the submitted color, category and confidence are
discarded — and every row with a different id is untouched; when no row with
the id exists, the full record is appended. -/
theorem add_piece_spec (table : PiecesTable) (piece : Piece) :
    (Database.add_piece table piece).1 = .ok () ∧
    (∀ e, Database.selectById table piece.id = some e →
        Database.selectById (Database.add_piece table piece).2 piece.id =
          some { e with quantity := e.quantity + piece.quantity } ∧
        ∀ r ∈ table, r.id ≠ piece.id → r ∈ (Database.add_piece table piece).2) ∧
    (Database.selectById table piece.id = none →
        (Database.add_piece table piece).2 = table ++ [piece]) := by
  refine ⟨?_, ?_, ?_⟩
  · unfold Database.add_piece
    cases h : Database.selectById table piece.id <;> rfl
  · intro e he
    constructor
    · unfold Database.add_piece
      rw [he]
      have hmap := selectById_map_update table piece.id
        (fun r => { r with quantity := piece.quantity + e.quantity })
        (fun _ => rfl) e he
      simpa [Int.add_comm] using hmap
    · intro r hr hne
      unfold Database.add_piece
      rw [he]
      have hb : (r.id == piece.id) = false := beq_eq_false_iff_ne.mpr hne
      have hfix :
          (fun x : Piece =>
            if x.id == piece.id then
              { x with quantity := piece.quantity + e.quantity } else x) r = r := by
        simp [hb]
      exact hfix ▸ List.mem_map_of_mem _ hr
  · intro he
    unfold Database.add_piece
    rw [he]

/-- Witness for `add_piece_spec` at the spec's concrete scenario: a second
submission under id `"a"` merges to quantity `1 + 2`, keeping the original
fields. -/
theorem add_piece_spec_witness :
    Database.selectById (Database.add_piece [samplePiece] samplePiece2).2
        samplePiece2.id =
      some { samplePiece with
              quantity := samplePiece.quantity + samplePiece2.quantity } :=
  ((add_piece_spec [samplePiece] samplePiece2).2.1 samplePiece (by decide)).1

/-- C2 (code bug): on the absent id `"missing"`, the
`src/src/storage/database.rs` store returns `PieceNotFound("missing")` from
both `update_quantity` and `delete_piece` and leaves the table unchanged —
exactly what the claim and the repository's own tests
(`test_piece_not_found`) require — while the older `src/src/db.rs` variant,
the one `lib.rs` compiles against, returns `Ok(())` from both and can never
produce the not-found error. -/
theorem notfound_contract_eval :
    Database.update_quantity [samplePiece] "missing" 5 =
      (.error (.PieceNotFound "missing"), [samplePiece]) ∧
    Database.delete_piece [samplePiece] "missing" =
      (.error (.PieceNotFound "missing"), [samplePiece]) ∧
    Db.update_quantity [samplePiece] "missing" 5 = (.ok (), [samplePiece]) ∧
    Db.delete_piece [samplePiece] "missing" = (.ok (), [samplePiece]) := by
  decide

/-- The ledger-creation statement always leaves the ledger table present. -/
theorem createSchemaVersionTable_isSome (s : DbState) :
    ((Database.createSchemaVersionTable s).schema_version).isSome := by
  unfold Database.createSchemaVersionTable
  cases hsv : s.schema_version <;> simp [hsv]

/-- The ledger-creation statement is the identity once the table exists. -/
theorem createSchemaVersionTable_eq_self {s : DbState}
    (h : s.schema_version.isSome) :
    Database.createSchemaVersionTable s = s := by
  unfold Database.createSchemaVersionTable
  cases hsv : s.schema_version with
  | none => rw [hsv] at h; simp at h
  | some l => rfl

/-- A fold with `max` only grows its accumulator. -/
theorem le_foldl_max (l : List Int) (a : Int) : a ≤ l.foldl max a := by
  induction l generalizing a with
  | nil => exact le_refl a
  | cons x t ih => exact le_trans (le_max_left a x) (ih (max a x))

/-- A ledger ending in `v` reads a version of at least `v`. -/
theorem currentVersion_concat {L : List Int} {v : Int} {s : DbState}
    (h : s.schema_version = some (L ++ [v])) :
    v ≤ Database.currentVersion s := by
  unfold Database.currentVersion
  rw [h]
  cases L with
  | nil => simp
  | cons a t =>
      simp only [Option.getD, List.cons_append]
      rw [List.foldl_append]
      exact le_max_right _ _

/-- The reading `currentVersion` depends only on the ledger. -/
theorem currentVersion_congr {s t : DbState}
    (h : s.schema_version = t.schema_version) :
    Database.currentVersion s = Database.currentVersion t := by
  unfold Database.currentVersion
  rw [h]

/-- Characterization of a successful ledger insert. -/
theorem insertSchemaVersion_some {x t : DbState} {v : Int}
    (h : Database.insertSchemaVersion x v = some t) :
    ∃ L, x.schema_version = some L ∧ v ∉ L ∧
      t = { x with schema_version := some (L ++ [v]) } := by
  unfold Database.insertSchemaVersion at h
  split at h
  · exact absurd h (by simp)
  · rename_i L hL
    split at h
    · exact absurd h (by simp)
    · rename_i hmem
      injection h with h
      exact ⟨L, hL, hmem, h.symm⟩

/-- The version-1 table creation does not touch the ledger. -/
theorem createPiecesTable_sv (x : DbState) :
    (Database.createPiecesTable x).schema_version = x.schema_version := by
  unfold Database.createPiecesTable
  split <;> rfl

/-- A successful `ADD COLUMN` does not touch the ledger. -/
theorem alterAddConfidence_sv {x t : DbState}
    (h : Database.alterAddConfidence x = some t) :
    t.schema_version = x.schema_version := by
  unfold Database.alterAddConfidence at h
  split at h
  · exact absurd h (by simp)
  · split at h
    · exact absurd h (by simp)
    · injection h with h
      rw [← h]

/-- Index creation does not touch the ledger. -/
theorem createIndex_sv (x : DbState) (n : String) :
    (Database.createIndex x n).schema_version = x.schema_version := by
  unfold Database.createIndex
  split <;> rfl

/-- Every error `init` can produce is a `Migration` error naming a step of
the ladder. -/
theorem init_error_cases {s : DbState} {e : StudFinderError}
    (h : Database.init s = .error e) :
    ∃ v op, e = StudFinderError.Migration v op ∧
      (v, op) ∈ Database.initStepNames := by
  by_cases h1 : Database.currentVersion (Database.createSchemaVersionTable s) < 1
  · have h2 : Database.currentVersion (Database.createSchemaVersionTable s) < 2 := by omega
    simp only [Database.init, if_pos h1, if_pos h2] at h
    split at h
    · rename_i heq
      split at heq
      · injection heq with heq'
        injection h with h'
        exact ⟨1, "update schema version", h'.symm.trans heq'.symm ▸ rfl, by decide⟩
      · exact absurd heq (by simp)
    · split at h
      · injection h with h'
        exact ⟨2, "add confidence column", h'.symm, by decide⟩
      · split at h
        · injection h with h'
          exact ⟨2, "update schema version", h'.symm, by decide⟩
        · exact absurd h (by simp)
  · by_cases h2 : Database.currentVersion (Database.createSchemaVersionTable s) < 2
    · simp only [Database.init, if_neg h1, if_pos h2] at h
      split at h
      · injection h with h'
        exact ⟨2, "add confidence column", h'.symm, by decide⟩
      · split at h
        · injection h with h'
          exact ⟨2, "update schema version", h'.symm, by decide⟩
        · exact absurd h (by simp)
    · simp only [Database.init, if_neg h1, if_neg h2] at h
      exact absurd h (by simp)

/-- A successful `init` appends to the ledger exactly the targets above the
version read at the start of the call. -/
theorem init_ok_ledger {s s' : DbState} (h : Database.init s = .ok s') :
    s'.schema_version =
      some ((Database.createSchemaVersionTable s).schema_version.getD [] ++
        Database.migrationTargets.filter
          (fun t => Database.currentVersion (Database.createSchemaVersionTable s) < t)) := by
  have hsome := createSchemaVersionTable_isSome s
  obtain ⟨L, hL⟩ := Option.isSome_iff_exists.mp hsome
  by_cases h1 : Database.currentVersion (Database.createSchemaVersionTable s) < 1
  · have h2 : Database.currentVersion (Database.createSchemaVersionTable s) < 2 := by omega
    simp only [Database.init, if_pos h1, if_pos h2] at h
    split at h
    · exact absurd h (by simp)
    · rename_i s1 heq1
      split at heq1
      · exact absurd heq1 (by simp)
      · rename_i t1 halter1
        split at h
        · exact absurd h (by simp)
        · rename_i tA halter
          split at h
          · exact absurd h (by simp)
          · rename_i tB hins2
            injection h with h
            injection heq1 with heq1
            subst h
            subst heq1
            obtain ⟨L2, hL2, _, htB⟩ := insertSchemaVersion_some hins2
            obtain ⟨L1, hL1, _, ht1⟩ := insertSchemaVersion_some halter1
            rw [createPiecesTable_sv, hL] at hL1
            injection hL1 with hL1
            subst hL1
            rw [htB]
            have : (Database.createIndex (Database.createIndex tA "idx_part_number")
                "idx_color").schema_version = tA.schema_version := by
              rw [createIndex_sv, createIndex_sv]
            rw [this, alterAddConfidence_sv halter, ht1] at hL2
            injection hL2 with hL2
            simp only [hL, Option.getD, Database.migrationTargets]
            rw [← hL2]
            simp [List.filter, h1, h2]
  · by_cases h2 : Database.currentVersion (Database.createSchemaVersionTable s) < 2
    · simp only [Database.init, if_neg h1, if_pos h2] at h
      split at h
      · exact absurd h (by simp)
      · rename_i tA halter
        split at h
        · exact absurd h (by simp)
        · rename_i tB hins2
          injection h with h
          subst h
          obtain ⟨L2, hL2, _, htB⟩ := insertSchemaVersion_some hins2
          have hci : (Database.createIndex (Database.createIndex tA "idx_part_number")
              "idx_color").schema_version = tA.schema_version := by
            rw [createIndex_sv, createIndex_sv]
          rw [hci, alterAddConfidence_sv halter, hL] at hL2
          injection hL2 with hL2
          rw [htB]
          simp only [hL, Option.getD, Database.migrationTargets]
          rw [← hL2]
          simp [List.filter, h1, h2]
    · simp only [Database.init, if_neg h1, if_neg h2] at h
      injection h with h
      subst h
      simp only [hL, Option.getD, Database.migrationTargets]
      simp [List.filter, h1, h2, hL]

/-- C3: one `init` call applies exactly the migration steps whose target
version exceeds the version persisted at the start of the call (the ledger
gains exactly those targets, in order), inside one transaction: on any step
failure the persisted state is exactly the pre-call state — version
included — and the returned error is a `Migration` error carrying the
failing step's target version and operation name. -/
theorem init_transactional (s : DbState) :
    (∀ e, (Database.initPersisted s).1 = .error e →
        (Database.initPersisted s).2 = s ∧
        ∃ v op, e = StudFinderError.Migration v op ∧
          (v, op) ∈ Database.initStepNames) ∧
    (∀ s', Database.init s = .ok s' →
        s'.schema_version =
          some ((Database.createSchemaVersionTable s).schema_version.getD [] ++
            Database.migrationTargets.filter
              (fun t =>
                Database.currentVersion (Database.createSchemaVersionTable s) < t))) := by
  constructor
  · intro e he
    unfold Database.initPersisted at he ⊢
    cases hinit : Database.init s with
    | ok s' => rw [hinit] at he; exact absurd he (by simp)
    | error e' =>
        rw [hinit] at he
        injection he with he
        subst he
        exact ⟨rfl, init_error_cases hinit⟩
  · intro s' h
    exact init_ok_ledger h

/-- Witness for `init_transactional` on the corrupted store whose ledger was
lost while the `confidence` column survived: the version-2 `ALTER TABLE`
step fails, the persisted state is untouched, and the error names the step. -/
theorem init_transactional_witness :
    (Database.initPersisted corruptedDb).2 = corruptedDb ∧
    ∃ v op, StudFinderError.Migration 2 "add confidence column" =
        StudFinderError.Migration v op ∧
      (v, op) ∈ Database.initStepNames :=
  (init_transactional corruptedDb).1
    (.Migration 2 "add confidence column") (by decide)

/-- After a successful `init` the ledger exists and reads at least 2. -/
theorem init_ok_version {s s' : DbState} (h : Database.init s = .ok s') :
    s'.schema_version.isSome ∧ 2 ≤ Database.currentVersion s' := by
  have hled := init_ok_ledger h
  refine ⟨by rw [hled]; rfl, ?_⟩
  by_cases h2 : Database.currentVersion (Database.createSchemaVersionTable s) < 2
  · by_cases h1 : Database.currentVersion (Database.createSchemaVersionTable s) < 1
    · have : s'.schema_version =
          some (((Database.createSchemaVersionTable s).schema_version.getD [] ++ [1]) ++ [2]) := by
        rw [hled]
        simp [Database.migrationTargets, List.filter, h1, h2]
      exact currentVersion_concat this
    · have : s'.schema_version =
          some ((Database.createSchemaVersionTable s).schema_version.getD [] ++ [2]) := by
        rw [hled]
        simp [Database.migrationTargets, List.filter, h1, h2]
      exact currentVersion_concat this
  · have h1 : ¬ Database.currentVersion (Database.createSchemaVersionTable s) < 1 := by omega
    have hsv : s'.schema_version = (Database.createSchemaVersionTable s).schema_version := by
      rw [hled]
      obtain ⟨L, hL⟩ := Option.isSome_iff_exists.mp (createSchemaVersionTable_isSome s)
      simp [Database.migrationTargets, List.filter, h1, h2, hL]
    have := currentVersion_congr hsv
    omega

/-- C4: `init` is idempotent — a second consecutive call on the state a
successful call produced is a no-op returning the state unchanged, so the
ledger's maximum, the `pieces` table definition, and the ledger rows are all
untouched and no duplicate ledger entries appear. -/
theorem init_idempotent (s s' : DbState) (h : Database.init s = .ok s') :
    Database.init s' = .ok s' := by
  obtain ⟨hsome, hver⟩ := init_ok_version h
  have hc : Database.createSchemaVersionTable s' = s' :=
    createSchemaVersionTable_eq_self hsome
  have h1 : ¬ Database.currentVersion s' < 1 := by omega
  have h2 : ¬ Database.currentVersion s' < 2 := by omega
  simp only [Database.init, hc, if_neg h1, if_neg h2]

/-- Witness for `init_idempotent`: initializing a fresh store yields
`initializedState`, and a second `init` returns it unchanged. -/
theorem init_idempotent_witness :
    Database.init initializedState = .ok initializedState :=
  init_idempotent emptyDb initializedState (by decide)

/-- C9: `reset` drops all managed tables — the `pieces` table with its
indexes and the `schema_version` ledger — and re-runs `init` from version 0,
so from every starting state it succeeds with the freshly initialized
schema: `list_pieces` is empty and the ledger's maximum version equals the
latest ladder version 2. -/
theorem reset_complete (s : DbState) :
    Database.reset s = .ok initializedState ∧
    Database.list_pieces initializedState.pieces_rows = .ok [] ∧
    Database.currentVersion initializedState = 2 := by
  refine ⟨rfl, rfl, by decide⟩

/-- C5 counterexample: on the freshly initialized schema — which a single
`init` from the empty store produces — the version-2 step's `ALTER TABLE
pieces ADD COLUMN confidence` cannot be attempted again: it fails with
SQLite's duplicate-column error (`none`, which `init` surfaces as
`Migration 2 "add confidence column"`).  This refutes the claim that every
step's schema-changing statements are safe to re-attempt. -/
theorem ddl_idempotence_counterexample :
    Database.init emptyDb = .ok initializedState ∧
    Database.alterAddConfidence initializedState = none := by
  exact ⟨by decide, by decide⟩

/-- C5 amended: the table-creation statements (ledger and version-1
`pieces`, both `CREATE TABLE IF NOT EXISTS`) and the version-2 index
creations (`CREATE INDEX IF NOT EXISTS`) are idempotent — re-attempting
them is a no-op that cannot fail — but the version-2 `ADD COLUMN` statement
is not: once applied, attempting it again fails with a duplicate-column
error, so for that step only the version gate prevents re-execution. -/
theorem ddl_idempotence_amended :
    (∀ s : DbState,
        Database.createSchemaVersionTable (Database.createSchemaVersionTable s) =
          Database.createSchemaVersionTable s) ∧
    (∀ s : DbState,
        Database.createPiecesTable (Database.createPiecesTable s) =
          Database.createPiecesTable s) ∧
    (∀ (s : DbState) (n : String),
        Database.createIndex (Database.createIndex s n) n =
          Database.createIndex s n) ∧
    (∀ s t : DbState, Database.alterAddConfidence s = some t →
        Database.alterAddConfidence t = none) := by
  refine ⟨?_, ?_, ?_, ?_⟩
  · intro s
    exact createSchemaVersionTable_eq_self (createSchemaVersionTable_isSome s)
  · intro s
    unfold Database.createPiecesTable
    cases hpc : s.pieces_cols <;> simp [hpc]
  · intro s n
    unfold Database.createIndex
    by_cases h : n ∈ s.indexes
    · simp [h]
    · simp [h]
  · intro s t h
    unfold Database.alterAddConfidence at h ⊢
    split at h
    · exact absurd h (by simp)
    · rename_i cols hcols
      split at h
      · exact absurd h (by simp)
      · rename_i hmem
        injection h with h
        rw [← h]
        simp

/-- Witness for `ddl_idempotence_amended`: re-attempting the `ADD COLUMN`
on the concrete store it already migrated fails. -/
theorem ddl_idempotence_amended_witness :
    Database.alterAddConfidence v1DbAltered = none :=
  ddl_idempotence_amended.2.2.2 v1Db v1DbAltered (by decide)

/-- C6 counterexample: the store validates nothing, so the claimed invariant
fails on a reachable state — starting from the empty table, adding the
valid sample record and then calling `update_quantity("a", -5)` succeeds
and leaves a stored row with a negative quantity. -/
theorem invariant_counterexample :
    ∃ p ∈ Database.run [.add samplePiece, .upd "a" (-5)], p.quantity < 0 := by
  exact ⟨{ samplePiece with quantity := -5 }, by decide, by decide⟩

/-- A selected row is a stored row. -/
theorem selectById_mem {t : PiecesTable} {id : String} {e : Piece}
    (h : Database.selectById t id = some e) : e ∈ t := by
  induction t with
  | nil => simp [Database.selectById] at h
  | cons a l ih =>
      by_cases ha : (a.id == id) = true
      · have : a = e := by simpa [Database.selectById, ha] using h
        exact this ▸ List.mem_cons_self a l
      · have h' : Database.selectById l id = some e := by
          simpa [Database.selectById, ha] using h
        exact List.mem_cons_of_mem a (ih h')

/-- Each public operation with valid input preserves the record invariant. -/
theorem applyOp_valid {t : PiecesTable} {o : Database.Op}
    (ht : TableValid t) (ho : ValidOp o) :
    TableValid (Database.applyOp t o) := by
  cases o with
  | add p =>
      simp only [Database.applyOp, Database.add_piece]
      cases hsel : Database.selectById t p.id with
      | some e =>
          intro r hr
          simp only at hr
          obtain ⟨x, hx, hxr⟩ := List.mem_map.mp hr
          subst hxr
          have hx' := ht x hx
          by_cases hid : (x.id == p.id) = true
          · simp only [if_pos hid]
            have he := ht e (selectById_mem hsel)
            exact ⟨add_nonneg ho.1 he.1, hx'.2⟩
          · simp only [if_neg hid]
            exact hx'
      | none =>
          intro r hr
          simp only at hr
          rcases List.mem_append.mp hr with hr | hr
          · exact ht r hr
          · rw [List.mem_singleton.mp hr]
            exact ho
  | upd id q =>
      simp only [Database.applyOp, Database.update_quantity]
      intro r hr
      have hr' : r ∈ t.map (fun x =>
          if x.id == id then { x with quantity := q } else x) := by
        by_cases hz : (t.filter (fun x => x.id == id)).length = 0
        · simpa [hz] using hr
        · simpa [hz] using hr
      obtain ⟨x, hx, hxr⟩ := List.mem_map.mp hr'
      subst hxr
      have hx' := ht x hx
      by_cases hid : (x.id == id) = true
      · simp only [if_pos hid]
        exact ⟨ho, hx'.2⟩
      · simp only [if_neg hid]
        exact hx'
  | del id =>
      simp only [Database.applyOp, Database.delete_piece]
      intro r hr
      have hr' : r ∈ t.filter (fun x => !(x.id == id)) := by
        by_cases hz : (t.filter (fun x => x.id == id)).length = 0
        · simpa [hz] using hr
        · simpa [hz] using hr
      exact ht r (List.mem_of_mem_filter hr')

/-- C6 amended: the store itself enforces nothing, so the invariant is
conditional on inputs — in every state reachable through the public
operations with valid inputs (every added or imported record has
`quantity ≥ 0` and `confidence ∈ [0, 1]`, every quantity update is
non-negative), all persisted rows satisfy `quantity ≥ 0` and
`confidence ∈ [0, 1]`. -/
theorem invariant_amended (ops : List Database.Op)
    (h : ∀ o ∈ ops, ValidOp o) : TableValid (Database.run ops) := by
  have hgen : ∀ (l : List Database.Op) (t : PiecesTable), TableValid t →
      (∀ o ∈ l, ValidOp o) → TableValid (l.foldl Database.applyOp t) := by
    intro l
    induction l with
    | nil => intro t ht _; exact ht
    | cons o rest ih =>
        intro t ht hv
        simp only [List.foldl_cons]
        exact ih _ (applyOp_valid ht (hv o (List.mem_cons_self o rest)))
          (fun o' ho' => hv o' (List.mem_cons_of_mem o ho'))
  exact hgen ops [] (by intro p hp; simp at hp) h

/-- Witness for `invariant_amended`: one valid `add` yields a valid table. -/
theorem invariant_amended_witness :
    TableValid (Database.run [.add samplePiece]) :=
  invariant_amended [.add samplePiece]
    (by
      intro o ho
      rw [List.mem_singleton.mp ho]
      exact ⟨by decide, by decide, by decide⟩)

/-- One record decodes back from its own serialization, given that its
quantity is `i32`-representable (which every stored record's is). -/
theorem pieceFromJson_pieceToJson (p : Piece)
    (h1 : -(2 ^ 31) ≤ p.quantity) (h2 : p.quantity < 2 ^ 31) :
    ExportManager.pieceFromJson (ExportManager.pieceToJson p) = some p := by
  have key : ExportManager.pieceFromJson (ExportManager.pieceToJson p) =
      Option.bind
        (if -(2 ^ 31) ≤ p.quantity ∧ p.quantity < 2 ^ 31
          then some p.quantity else none)
        (fun q =>
          some ⟨p.id, p.part_number, p.color, p.category, q, p.confidence⟩) := rfl
  rw [key, if_pos ⟨h1, h2⟩]
  rfl

/-- Serializing then deserializing a record list element-wise succeeds with
the original list. -/
theorem decodeAll_roundTrip (l : List Piece) :
    (∀ p ∈ l, -(2 ^ 31) ≤ p.quantity ∧ p.quantity < 2 ^ 31) →
    ExportManager.decodeAll (l.map ExportManager.pieceToJson) = some l := by
  induction l with
  | nil => intro _; rfl
  | cons p t ih =>
      intro h
      have hp := h p (List.mem_cons_self p t)
      have ht := ih (fun q hq => h q (List.mem_cons_of_mem p hq))
      simp [List.map_cons, ExportManager.decodeAll,
        pieceFromJson_pieceToJson p hp.1 hp.2, ht]

/-- C7: for every finite list of records whose quantities are
`i32`-representable (as every in-memory record's is), importing the file
produced by the JSON export yields exactly the original records — here even
in the original order, which implies the claim's order-independent set
equality.  The text layer is modelled at the JSON-value level, which is
exact precisely for records without control-character anomalies, the
claim's own proviso. -/
theorem json_round_trip (pieces : List Piece)
    (h : ∀ p ∈ pieces, -(2 ^ 31) ≤ p.quantity ∧ p.quantity < 2 ^ 31) :
    ExportManager.importInventoryJson
        (ExportManager.exportInventoryJson pieces) = .ok pieces := by
  have hred : ExportManager.importInventoryJson
      (ExportManager.exportInventoryJson pieces) =
      match ExportManager.decodeAll (pieces.map ExportManager.pieceToJson) with
      | some ps => Except.ok ps
      | none => Except.error (StudFinderError.Config "Failed to parse JSON data") :=
    rfl
  rw [hred, decodeAll_roundTrip pieces h]

/-- Witness for `json_round_trip` on a two-record inventory. -/
theorem json_round_trip_witness :
    ExportManager.importInventoryJson
        (ExportManager.exportInventoryJson [samplePiece, samplePiece2]) =
      .ok [samplePiece, samplePiece2] :=
  json_round_trip [samplePiece, samplePiece2] (by decide)

/-- C8 counterexample: a data line with only five fields is silently
skipped — the import succeeds and returns no records — whereas the claim
requires any line without exactly six fields to surface a parse error. -/
theorem csv_arity_counterexample :
    ExportManager.importInventoryCsv
      ["id,part_number,color,category,quantity,confidence",
       "a,3001,Red,Brick,2"] = .ok [] := by
  decide

/-- C8 amended: the CSV import skips the header line (whose content is never
inspected), splits each remaining line on commas, and parses exactly the
lines with six fields — quantity as an integer and confidence as a float,
either parse failure aborting the whole import with the `Config` error
naming the offending field — while every line with a different number of
fields is silently skipped rather than rejected. -/
theorem csv_import_amended :
    (∀ hd hd' rest, ExportManager.importInventoryCsv (hd :: rest) =
        ExportManager.importInventoryCsv (hd' :: rest)) ∧
    (∀ hd line rest, (ExportManager.splitComma line).length ≠ 6 →
        ExportManager.importInventoryCsv (hd :: line :: rest) =
          ExportManager.importInventoryCsv (hd :: rest)) ∧
    (∀ hd line rest a b c d qty conf,
        ExportManager.splitComma line = [a, b, c, d, qty, conf] →
        ExportManager.parseI32 qty = none →
        ExportManager.importInventoryCsv (hd :: line :: rest) =
          .error (.Config "Failed to parse quantity")) ∧
    (∀ hd line rest a b c d qty conf q,
        ExportManager.splitComma line = [a, b, c, d, qty, conf] →
        ExportManager.parseI32 qty = some q →
        ExportManager.parseF32 conf = none →
        ExportManager.importInventoryCsv (hd :: line :: rest) =
          .error (.Config "Failed to parse confidence")) ∧
    (∀ hd line rest a b c d qty conf q cv,
        ExportManager.splitComma line = [a, b, c, d, qty, conf] →
        ExportManager.parseI32 qty = some q →
        ExportManager.parseF32 conf = some cv →
        ExportManager.importInventoryCsv (hd :: line :: rest) =
          (ExportManager.importInventoryCsv (hd :: rest)).map
            (fun ps => ⟨a, b, c, d, q, cv⟩ :: ps)) := by
  refine ⟨?_, ?_, ?_, ?_, ?_⟩
  · intro hd hd' rest
    rfl
  · intro hd line rest hlen
    show ExportManager.importCsvGo (line :: rest) = ExportManager.importCsvGo rest
    conv_lhs => unfold ExportManager.importCsvGo
    split
    · rename_i a b c d qty conf heq
      rw [heq] at hlen
      simp at hlen
    · rfl
  · intro hd line rest a b c d qty conf hsplit hq
    show ExportManager.importCsvGo (line :: rest) = _
    conv_lhs => unfold ExportManager.importCsvGo
    rw [hsplit]
    simp only [hq]
  · intro hd line rest a b c d qty conf q hsplit hq hcv
    show ExportManager.importCsvGo (line :: rest) = _
    conv_lhs => unfold ExportManager.importCsvGo
    rw [hsplit]
    simp only [hq, hcv]
  · intro hd line rest a b c d qty conf q cv hsplit hq hcv
    show ExportManager.importCsvGo (line :: rest) =
      (ExportManager.importCsvGo rest).map (fun ps => ⟨a, b, c, d, q, cv⟩ :: ps)
    conv_lhs => unfold ExportManager.importCsvGo
    rw [hsplit]
    simp only [hq, hcv]
    cases hr : ExportManager.importCsvGo rest <;> rfl

/-- Witness for `csv_import_amended`: a six-field line whose quantity field
is not an integer aborts the import with the error naming the field. -/
theorem csv_import_amended_witness :
    ExportManager.importInventoryCsv
      ["id,part_number,color,category,quantity,confidence",
       "a,3001,Red,Brick,xx,0.95"] =
      .error (.Config "Failed to parse quantity") :=
  csv_import_amended.2.2.1 "id,part_number,color,category,quantity,confidence"
    "a,3001,Red,Brick,xx,0.95" [] "a" "3001" "Red" "Brick" "xx" "0.95"
    (by decide) (by decide)

/-- C10: import dispatch defaults to CSV — the JSON parser runs exactly when
the path's extension is the literal lowercase `"json"`; an uppercase
`"JSON"` extension, a missing extension, a hidden file named `".json"`, or
any other extension all fall through to the CSV parser. -/
theorem import_dispatch_default_csv :
    (∀ path, ExportManager.importKind path = .json ↔
        ExportManager.extensionOf path = some "json") ∧
    ExportManager.importKind "inventory.JSON" = .csv ∧
    ExportManager.importKind "inventory" = .csv ∧
    ExportManager.importKind "archive.tar" = .csv ∧
    ExportManager.importKind "/tmp/.json" = .csv ∧
    ExportManager.importKind "backup.json" = .json := by
  refine ⟨?_, by decide, by decide, by decide, by decide, by decide⟩
  intro path
  by_cases h : ExportManager.extensionOf path = some "json"
  · simp [ExportManager.importKind, h]
  · simp [ExportManager.importKind, h]

/-- Witness for `import_dispatch_default_csv` at a further concrete path. -/
theorem import_dispatch_default_csv_witness :
    ExportManager.importKind "exports/latest.json" = ExportManager.ParseKind.json :=
  (import_dispatch_default_csv.1 "exports/latest.json").mpr (by decide)
